import Mathlib

/-
  Verification development for the murolem/logger library.

  The embedding below translates the TypeScript sources:
    src/index.ts                 (class Logger: appendPrefix, clone, log)
    src/fallbackIfNullish.ts
    src/utils/doesObjectOnlyHaveSpecificProps.ts
    src/utils/objectGetOwnOrFallback.ts
    src/utils/isObject.ts
    src/constants.ts             (paramNames)

  JavaScript runtime values are modelled by the inductive JVal; machine
  numbers are modelled by Int (the claims only exercise integral values).
  Console writes, the alert modal and thrown errors are modelled as an
  explicit output record, so the stateful dispatch becomes a pure function.
-/

namespace Murolem

/-- Log levels, from the LogLevel union type: debug, info, warn, error. -/
inductive LogLevel where
  | debug
  | info
  | warn
  | error
deriving DecidableEq, Repr

/-- The string a level interpolates to inside the bracket header. -/
def LogLevel.str : LogLevel → String
  | .debug => "debug"
  | .info => "info"
  | .warn => "warn"
  | .error => "error"

/-- A model of JavaScript runtime values, covering every shape the log
method can receive: undefined, null, booleans, numbers (modelled by Int),
strings, arrays, plain records, functions (opaque), Error instances
(carrying their message) and BigInt (a non-JSON-serializable primitive). -/
inductive JVal where
  | undefined
  | null
  | bool (b : Bool)
  | num (n : Int)
  | str (s : String)
  | arr (elems : List JVal)
  | obj (fields : List (String × JVal))
  | func
  | errV (msg : String)
  | bigint (n : Int)

/-- Strict equality with undefined: v === undefined. -/
def JVal.isUndefined : JVal → Bool
  | .undefined => true
  | _ => false

/-- Strict equality with null: v === null. -/
def JVal.isNull : JVal → Bool
  | .null => true
  | _ => false

/-- src/utils/isObject.ts: value is not null and its constructor name is
Object, i.e. a plain record. Arrays, functions and Error instances have
other constructor names and are rejected. -/
def isObject : JVal → Bool
  | .obj _ => true
  | _ => false

/-- JavaScript truthiness, as used by the if statements of the log method.
Zero numbers, the empty string, undefined and null are falsy; arrays,
records, functions and Error instances are always truthy. -/
def truthy : JVal → Bool
  | .undefined => false
  | .null => false
  | .bool b => b
  | .num n => n != 0
  | .str s => s != ""
  | .bigint n => n != 0
  | .arr _ => true
  | .obj _ => true
  | .func => true
  | .errV _ => true

/-- Strict equality with boolean true: v === true. -/
def isStrictTrue : JVal → Bool
  | .bool b => b
  | _ => false

/-- src/constants.ts: the five recognized option keys of a params object. -/
def paramNames : List String :=
  ["additional", "alwaysLogAdditional", "stringifyAdditional", "throwErr", "alertMsg"]

/-- The own property names of a record, in insertion order
(Object.keys of the modelled object). -/
def objKeys (fields : List (String × JVal)) : List String :=
  fields.map Prod.fst

/-- Object.hasOwn on a plain record. -/
def jsHasOwn (fields : List (String × JVal)) (k : String) : Bool :=
  (objKeys fields).contains k

/-- Property read on a plain record: the stored value, or undefined when
the key is absent. -/
def objGetD (fields : List (String × JVal)) (k : String) : JVal :=
  match fields.find? (fun kv => kv.1 == k) with
  | some kv => kv.2
  | none => .undefined

/-- src/utils/objectGetOwnOrFallback.ts: the own property value when
present, the fallback otherwise. -/
def objectGetOwnOrFallback (fields : List (String × JVal)) (k : String) (fallbackValue : JVal) : JVal :=
  if jsHasOwn fields k then objGetD fields k else fallbackValue

/-- Property assignment obj.k = v on a plain record: overwrite the
existing entry, or append a new one. JavaScript records have unique keys,
so mapping over all entries coincides with updating the single entry. -/
def objSet (fields : List (String × JVal)) (k : String) (v : JVal) : List (String × JVal) :=
  if jsHasOwn fields k then
    fields.map (fun kv => if kv.1 == k then (kv.1, v) else kv)
  else
    fields ++ [(k, v)]

/-- src/fallbackIfNullish.ts: the fallback when the value is strictly
undefined or null, the value itself otherwise. -/
def fallbackIfNullish (value fallbackValue : JVal) : JVal :=
  if value.isUndefined || value.isNull then fallbackValue else value

/-- The distinct elements of a list, first occurrences kept: the key set
built by the Set constructor in doesObjectOnlyHaveSpecificProps. -/
def dedupFirst (l : List String) : List String :=
  l.foldl (fun acc x => if acc.contains x then acc else acc ++ [x]) []

/-- src/utils/doesObjectOnlyHaveSpecificProps.ts, applied to the key list
of a record: false when the record has more keys than there are distinct
props; the emptyObjectSatisfies flag for an empty record; false when some
key is not among the props; otherwise true (or, when fullMatchRequired,
whether every prop is present). The log method calls it with both flags
left at their false defaults. -/
def doesObjectOnlyHaveSpecificProps (ownProps props : List String)
    (emptyObjectSatisfies fullMatchRequired : Bool) : Bool :=
  let propsSet := dedupFirst props
  if ownProps.length > propsSet.length then
    false
  else if ownProps.length == 0 then
    emptyObjectSatisfies
  else if !(ownProps.all (fun p => propsSet.contains p)) then
    false
  else if fullMatchRequired then
    ownProps.length == propsSet.length
  else
    true

/-
  String coercion performed by the + concatenation in the log method:
  the header string + msg. Arrays join their coerced elements with commas,
  where undefined and null elements coerce to the empty string; records
  coerce to the object tag; the single opaque function value is given a
  canonical rendering.
-/
mutual

def jsToString : JVal → String
  | .undefined => "undefined"
  | .null => "null"
  | .bool b => cond b "true" "false"
  | .num n => toString n
  | .str s => s
  | .arr elems => String.intercalate "," (jsToStringItems elems)
  | .obj _ => "[object Object]"
  | .func => "function () \x7b\x7d"
  | .errV m => "Error: " ++ m
  | .bigint n => toString n

def jsToStringItems : List JVal → List String
  | [] => []
  | .undefined :: rest => "" :: jsToStringItems rest
  | .null :: rest => "" :: jsToStringItems rest
  | v :: rest => jsToString v :: jsToStringItems rest

end

/-- A lower-case hexadecimal digit. -/
def hexDigit (n : Nat) : Char :=
  if n < 10 then Char.ofNat (48 + n) else Char.ofNat (87 + n)

/-- JSON escaping of a single character, per the JSON quoting rules used
by JSON.stringify. -/
def jsonQuoteChar (c : Char) : String :=
  if c = Char.ofNat 34 then "\\\""
  else if c = Char.ofNat 92 then "\\\\"
  else if c = Char.ofNat 10 then "\\n"
  else if c = Char.ofNat 13 then "\\r"
  else if c = Char.ofNat 9 then "\\t"
  else if c = Char.ofNat 8 then "\\b"
  else if c = Char.ofNat 12 then "\\f"
  else if c.toNat < 32 then
    "\\u00" ++ Char.toString (hexDigit (c.toNat / 16)) ++ Char.toString (hexDigit (c.toNat % 16))
  else
    Char.toString c

/-- A JSON string literal for s. -/
def jsonQuote (s : String) : String :=
  "\"" ++ String.join (s.toList.map jsonQuoteChar) ++ "\""

/-- The indentation gap derived from the space argument of JSON.stringify:
a number gives that many spaces, clamped to the range zero to ten; a
string gives its first ten characters; any other value gives no gap. -/
def spaceGap : JVal → String
  | .num n => String.mk (List.replicate (min (max n 0) 10).toNat ' ')
  | .str s => s.take 10
  | _ => ""

/-- The property allowlist derived from an array replacer argument of
JSON.stringify: its string and number elements, first occurrences kept.
Non-array replacers are ignored. A function replacer transforms values by
running caller code and is outside this model; no claim exercises it. -/
def replacerKeys : JVal → Option (List String)
  | .arr elems =>
      some (dedupFirst (elems.filterMap (fun e =>
        match e with
        | .str s => some s
        | .num n => some (toString n)
        | _ => none)))
  | _ => none

/-- Rendering of a serialized object from its member strings: empty braces
for no members; a single line when there is no gap; otherwise one member
per line at the inner indentation, closed at the outer indentation. -/
def renderObj (gap indent : String) (mems : List String) : String :=
  if mems.isEmpty then "\x7b\x7d"
  else if gap == "" then "\x7b" ++ String.intercalate "," mems ++ "\x7d"
  else
    "\x7b\n" ++ (indent ++ gap)
      ++ String.intercalate (",\n" ++ (indent ++ gap)) mems
      ++ "\n" ++ indent ++ "\x7d"

/-- Rendering of a serialized array from its item strings, with the same
layout rules as renderObj. -/
def renderArr (gap indent : String) (items : List String) : String :=
  if items.isEmpty then "[]"
  else if gap == "" then "[" ++ String.intercalate "," items ++ "]"
  else
    "[\n" ++ (indent ++ gap)
      ++ String.intercalate (",\n" ++ (indent ++ gap)) items
      ++ "\n" ++ indent ++ "]"

/-
  The serialization core of JSON.stringify over JVal. A value serializes
  to none when JSON.stringify would drop it (undefined and functions);
  BigInt raises the TypeError message used by the platform serializer,
  which is the only failure path. Error instances have no enumerable own
  properties and serialize to empty braces. With an array replacer the
  members of every record are filtered by the allowlist (the JS ordering
  by the allowlist is simplified to insertion order; no claim depends on
  it).
-/
mutual

def serVal (rk : Option (List String)) (gap indent : String) : JVal → Except String (Option String)
  | .undefined => .ok none
  | .func => .ok none
  | .null => .ok (some "null")
  | .bool b => .ok (some (cond b "true" "false"))
  | .num n => .ok (some (toString n))
  | .str s => .ok (some (jsonQuote s))
  | .bigint _ => .error "Do not know how to serialize a BigInt"
  | .errV _ => .ok (some "\x7b\x7d")
  | .arr elems =>
      match serItems rk gap (indent ++ gap) elems with
      | .error e => .error e
      | .ok items => .ok (some (renderArr gap indent items))
  | .obj fields =>
      match serMembers rk gap (indent ++ gap) fields with
      | .error e => .error e
      | .ok mems => .ok (some (renderObj gap indent mems))

def serItems (rk : Option (List String)) (gap indent : String) : List JVal → Except String (List String)
  | [] => .ok []
  | v :: rest =>
      match serVal rk gap indent v with
      | .error e => .error e
      | .ok r =>
          match serItems rk gap indent rest with
          | .error e => .error e
          | .ok rs => .ok ((r.getD "null") :: rs)

def serMembers (rk : Option (List String)) (gap indent : String) : List (String × JVal) → Except String (List String)
  | [] => .ok []
  | (k, v) :: rest =>
      if (match rk with | some ks => ks.contains k | none => true) then
        match serVal rk gap indent v with
        | .error e => .error e
        | .ok r =>
            match serMembers rk gap indent rest with
            | .error e => .error e
            | .ok rs =>
                .ok (match r with
                  | none => rs
                  | some s => (jsonQuote k ++ ":" ++ (if gap == "" then "" else " ") ++ s) :: rs)
      else
        serMembers rk gap indent rest

end

/-- JSON.stringify value replacer space: the string result, the undefined
result for a dropped top-level value, or the serializer TypeError. -/
def jsonStringify (v replacer space : JVal) : Except String JVal :=
  match serVal (replacerKeys replacer) (spaceGap space) "" v with
  | .error e => .error e
  | .ok none => .ok .undefined
  | .ok (some s) => .ok (.str s)

/-- Property read on an arbitrary value, as used by the dispatch step for
stringifyAdditional.replacer and stringifyAdditional.space: a record
lookup, and undefined on every non-record (these reads happen only on
truthy values, so the null and undefined TypeError paths are unreachable;
primitives box and have none of the read properties as own ones). -/
def jsGetProp (v : JVal) (k : String) : JVal :=
  match v with
  | .obj fields => objGetD fields k
  | _ => .undefined

/-- Object.hasOwn based read on an arbitrary value, as used by the arg4
branch of the log method: records use objectGetOwnOrFallback, every other
value has no own property named after an option key and yields the
fallback. -/
def jsGetOwnOrFallback (v : JVal) (k : String) (fallbackValue : JVal) : JVal :=
  match v with
  | .obj fields => objectGetOwnOrFallback fields k fallbackValue
  | _ => fallbackValue

/-- The fully resolved option set produced by the argument-resolution
phase of the log method (lines 147 to 235 of src/index.ts): the five
option slots, still holding raw JavaScript values, plus the
isArg3IsParamsObj discriminant. -/
structure Resolved where
  additional : JVal
  alwaysLogAdditional : JVal
  stringifyAdditional : JVal
  alertMsg : JVal
  throwErr : JVal
  isArg3ParamsObj : Bool

/-- The in-place space defaulting applied to a stringifyAdditional value
when it is a plain record (lines 192 to 196 and 223 to 227 of
src/index.ts): space becomes 2 when it was undefined or null. In
JavaScript the assignment mutates the caller-supplied record through the
shared reference; the embedding carries the updated record value. -/
def resolveStringifyField (sa : JVal) : JVal :=
  match sa with
  | .obj cfg => .obj (objSet cfg "space" (fallbackIfNullish (objGetD cfg "space") (.num 2)))
  | _ => sa

/-- The argument-resolution phase of the log method (lines 147 to 235 of
src/index.ts). The initial values are the defaults of the setup block:
every option undefined except throwErr, which starts as false. When arg3
is undefined nothing is assigned (the alwaysLogAdditional check of line
166 reads the still-undefined default, so its branch would assign
undefined to undefined). Otherwise arg3 is a params object exactly when
arg4 is undefined, arg3 is a plain record and its keys pass
doesObjectOnlyHaveSpecificProps against paramNames; in that case the five
options are extracted from it and arg4 is ignored. In every other case
arg3 is the additional value, and a truthy arg4 is parsed as a params
object without additional. -/
def resolveArgs (arg3 arg4 : JVal) : Resolved :=
  let st1 : Resolved :=
    match arg3 with
    | .undefined =>
        ⟨.undefined, .undefined, .undefined, .undefined, .bool false, false⟩
    | .obj fields =>
        if arg4.isUndefined && doesObjectOnlyHaveSpecificProps (objKeys fields) paramNames false false then
          ⟨objectGetOwnOrFallback fields "additional" .undefined,
           objectGetOwnOrFallback fields "alwaysLogAdditional" .undefined,
           resolveStringifyField (objectGetOwnOrFallback fields "stringifyAdditional" .undefined),
           objectGetOwnOrFallback fields "alertMsg" .undefined,
           objectGetOwnOrFallback fields "throwErr" (.bool false),
           true⟩
        else
          ⟨.obj fields, .undefined, .undefined, .undefined, .bool false, false⟩
    | v =>
        ⟨v, .undefined, .undefined, .undefined, .bool false, false⟩
  if st1.isArg3ParamsObj then
    st1
  else if truthy arg4 then
    ⟨st1.additional,
     jsGetOwnOrFallback arg4 "alwaysLogAdditional" st1.alwaysLogAdditional,
     resolveStringifyField (jsGetOwnOrFallback arg4 "stringifyAdditional" st1.stringifyAdditional),
     jsGetOwnOrFallback arg4 "alertMsg" st1.alertMsg,
     jsGetOwnOrFallback arg4 "throwErr" st1.throwErr,
     false⟩
  else
    st1

/-- What a finished log call threw, if anything: a freshly constructed
Error (the string and boolean-true throwErr paths), the caller-supplied
Error instance re-raised with its message mutated, or a propagated
serialization TypeError. -/
inductive Thrown where
  | newError (msg : String)
  | originalError (msg : String)
  | serFailure (msg : String)

/-- The observable effects of one log call: the console writes (each a
first string argument with an optional second argument), the bodies passed
to alert, what was thrown, and the final state of the caller-supplied
stringifyAdditional configuration record when there is one. -/
structure LogOutput where
  consoleLines : List (String × Option JVal)
  alertCalls : List String
  thrown : Option Thrown
  stringifyCfgFinal : Option (List (String × JVal))

/-- Whether the additional-data block runs (line 245 of src/index.ts):
alwaysLogAdditional is truthy or additional is not strictly undefined. -/
def logAdditionalOf (r : Resolved) : Bool :=
  truthy r.alwaysLogAdditional || !r.additional.isUndefined

/-- The serialization outcome of the additional-data block (lines 245 to
259 of src/index.ts), independent of the header: none when the block does
not run, the raw additional value when stringifyAdditional is falsy, the
JSON.stringify result with null replacer and space 2 when it is strictly
true, and the JSON.stringify result with its replacer and space properties
otherwise. There is no catch anywhere, so an error is the platform
TypeError of the serializer. -/
def serOfResolved (r : Resolved) : Except String (Option JVal) :=
  if logAdditionalOf r then
    if truthy r.stringifyAdditional then
      if isStrictTrue r.stringifyAdditional then
        match jsonStringify r.additional .null (.num 2) with
        | .error e => .error e
        | .ok s => .ok (some s)
      else
        match jsonStringify r.additional (jsGetProp r.stringifyAdditional "replacer") (jsGetProp r.stringifyAdditional "space") with
        | .error e => .error e
        | .ok s => .ok (some s)
    else
      .ok (some r.additional)
  else
    .ok none

/-- The final state of the caller-supplied stringifyAdditional record: the
resolved record value (aliased, in JavaScript, with the record inside the
params object the caller passed), or none when the resolved option is not
a record. -/
def cfgFinal (r : Resolved) : Option (List (String × JVal)) :=
  match r.stringifyAdditional with
  | .obj f => some f
  | _ => none

/-- The alert body composed by lines 262 to 277 of src/index.ts: the
prefixed primary message, then, after a blank line, a note per extra
element, each on its own line. Note the source spelling messaage. The
source computes this string but contains no call to alert, so it is never
displayed. -/
def composeAlertBody (msgWithPfx : String) (logAdditional throwErrTruthy : Bool) : String :=
  let parts := [msgWithPfx]
    ++ (if logAdditional then ["(see additional data in the console)"] else [])
    ++ (if throwErrTruthy then ["(see an error messaage in the console)"] else [])
  if parts.length == 1 then
    parts.headD ""
  else
    parts.headD "" ++ "\n\n" ++ String.intercalate "\n" parts.tail

/-- The bracket header of every emitted line (line 238 of src/index.ts):
the level, then, when the prefix body is a non-empty string, a pipe and
the joined prefix parts. -/
def header (level : LogLevel) (prefixBody : String) : String :=
  "[" ++ level.str ++ (if prefixBody != "" then " | " ++ prefixBody else "") ++ "] "

/-- The main body of the log method (lines 237 to 288 of src/index.ts),
acting on the resolved options. The primary line is suppressed exactly
when throwErr is strictly true. A serialization error propagates at once:
the alert block and the throw block do not run after it. The alert block
composes its body when alertMsg is truthy and the host has an alert
function, but the source never invokes alert, so alertCalls is always
empty. Finally a truthy throwErr throws: a string throws a new Error with
the prefixed string, an Error instance is re-raised with the header
prepended to its message, and any other truthy value throws a new Error
carrying the prefixed primary message. -/
def dispatch (level : LogLevel) (msg : JVal) (prefixBody : String) (alertAvailable : Bool) (r : Resolved) : LogOutput :=
  let pfx := header level prefixBody
  let msgWithPfx := pfx ++ jsToString msg
  let logMsg := !(isStrictTrue r.throwErr)
  let lines0 : List (String × Option JVal) := if logMsg then [(msgWithPfx, none)] else []
  match serOfResolved r with
  | .error e =>
      ⟨lines0, [], some (.serFailure e), cfgFinal r⟩
  | .ok payload =>
      let addLines : List (String × Option JVal) :=
        match payload with
        | none => []
        | some p => [(pfx ++ "additional data:\n", some p)]
      let _unusedAlertBody : Option String :=
        if truthy r.alertMsg && alertAvailable then
          some (composeAlertBody msgWithPfx (logAdditionalOf r) (truthy r.throwErr))
        else
          none
      let thrown : Option Thrown :=
        if truthy r.throwErr then
          match r.throwErr with
          | .str s => some (.newError (pfx ++ s))
          | .errV m => some (.originalError (pfx ++ m))
          | _ => some (.newError msgWithPfx)
        else
          none
      ⟨lines0 ++ addLines, [], thrown, cfgFinal r⟩

/-- The Logger instance state: the private prefixParts array together with
the derived prefixBody join. The TypeScript prefixBody starts as undefined
but the constructor always runs appendPrefix, which makes it a string;
undefined and the empty string behave identically in the header
conditional, so the model uses the empty string. -/
structure Logger where
  prefixParts : List String
  prefixBody : String

/-- appendPrefix from src/index.ts: push the new parts and rebuild the
join. -/
def Logger.appendPrefix (l : Logger) (ps : List String) : Logger :=
  ⟨l.prefixParts ++ ps, String.intercalate " > " (l.prefixParts ++ ps)⟩

/-- The constructor new Logger(...prefix): a fresh empty prefix array,
then appendPrefix with the given parts. -/
def Logger.make (ps : List String) : Logger :=
  Logger.appendPrefix ⟨[], ""⟩ ps

/-- clone from src/index.ts: a new Logger built from the current prefix
parts. -/
def Logger.clone (l : Logger) : Logger :=
  Logger.make l.prefixParts

/-- The log method: argument resolution followed by the dispatch body.
alertAvailable models whether an alert function exists in globalThis. -/
def Logger.log (l : Logger) (level : LogLevel) (msg arg3 arg4 : JVal) (alertAvailable : Bool) : LogOutput :=
  dispatch level msg l.prefixBody alertAvailable (resolveArgs arg3 arg4)

/-
  A heap-level view of the prefix arrays, for the claims about reference
  independence of clones. Each Logger instance owns one array in the
  store; appendPrefix mutates the array of its instance in place, and the
  constructor allocates a fresh array before pushing the initial parts, so
  a clone never shares its array with the original.
-/

/-- The store of prefix arrays, one slot per constructed Logger. -/
structure PrefixStore where
  arrays : List (List String)

/-- The array owned by the instance with slot r. -/
def PrefixStore.getArr (s : PrefixStore) (r : Nat) : List String :=
  s.arrays.getD r []

/-- Overwrite the array owned by slot r. -/
def PrefixStore.setArr (s : PrefixStore) (r : Nat) (a : List String) : PrefixStore :=
  ⟨s.arrays.set r a⟩

/-- appendPrefix at the heap level: push the parts onto the array of the
instance, in place. -/
def appendPrefixHeap (s : PrefixStore) (r : Nat) (ps : List String) : PrefixStore :=
  s.setArr r (s.getArr r ++ ps)

/-- The constructor at the heap level: allocate a fresh empty array (the
field initializer), then appendPrefix the initial parts into it. -/
def makeLoggerHeap (s : PrefixStore) (ps : List String) : PrefixStore × Nat :=
  let r := s.arrays.length
  (appendPrefixHeap ⟨s.arrays ++ [[]]⟩ r ps, r)

/-- clone at the heap level: construct a new Logger from the prefix parts
of the original, spread into the fresh array of the new instance. -/
def cloneHeap (s : PrefixStore) (r : Nat) : PrefixStore × Nat :=
  makeLoggerHeap s (s.getArr r)

/-
  Helper lemmas shared by the claim theorems.
-/

/-- The props-match test of the log method, characterized: with the five
paramNames and both option flags false, it accepts exactly the non-empty
key lists of length at most five all of whose keys are recognized. -/
theorem dosp_paramNames_iff (keys : List String) :
    doesObjectOnlyHaveSpecificProps keys paramNames false false = true ↔
      keys ≠ [] ∧ keys.length ≤ 5 ∧ ∀ k ∈ keys, k ∈ paramNames := by
  have hdd : dedupFirst paramNames = paramNames := rfl
  have hlen : paramNames.length = 5 := rfl
  unfold doesObjectOnlyHaveSpecificProps
  rw [hdd]
  dsimp only
  rw [hlen]
  by_cases h1 : keys.length > 5
  · rw [if_pos h1]
    simp only [Bool.false_eq_true, false_iff]
    intro hc
    omega
  · rw [if_neg h1]
    by_cases h2 : keys.length == 0
    · rw [if_pos h2]
      simp only [Bool.false_eq_true, false_iff]
      intro hc
      have : keys = [] := List.eq_nil_of_length_eq_zero (by simpa using h2)
      exact hc.1 this
    · rw [if_neg h2]
      by_cases h3 : keys.all (fun p => paramNames.contains p)
      · rw [if_neg (by simpa using h3)]
        simp only [if_neg (Bool.false_ne_true), true_iff]
        refine ⟨?_, by omega, ?_⟩
        · intro hnil
          rw [hnil] at h2
          exact h2 rfl
        · intro k hk
          exact List.elem_iff.mp (List.all_eq_true.mp h3 k hk)
      · rw [if_pos (by simpa using h3)]
        simp only [Bool.false_eq_true, false_iff]
        intro hc
        exact h3 (List.all_eq_true.mpr (fun k hk => List.elem_iff.mpr (hc.2.2 k hk)))

/-- A list of distinct keys all drawn from the five paramNames has at most
five elements. -/
theorem nodup_subset_paramNames_length (keys : List String)
    (hnd : keys.Nodup) (hsub : ∀ k ∈ keys, k ∈ paramNames) :
    keys.length ≤ 5 := by
  have h1 : keys.toFinset.card = keys.length := List.toFinset_card_of_nodup hnd
  have h2 : keys.toFinset ⊆ paramNames.toFinset := by
    intro x hx
    simp only [List.mem_toFinset] at hx ⊢
    exact hsub x hx
  have h3 : keys.toFinset.card ≤ paramNames.toFinset.card := Finset.card_le_card h2
  have h4 : paramNames.toFinset.card ≤ paramNames.length := paramNames.toFinset_card_le
  have h5 : paramNames.length = 5 := rfl
  omega

/-- Resolution when arg3 is a record that passes the params test and arg4
is absent: the five options are extracted from arg3. -/
theorem resolveArgs_params_eq (fields : List (String × JVal))
    (hm : doesObjectOnlyHaveSpecificProps (objKeys fields) paramNames false false = true) :
    resolveArgs (.obj fields) .undefined =
      ⟨objectGetOwnOrFallback fields "additional" .undefined,
       objectGetOwnOrFallback fields "alwaysLogAdditional" .undefined,
       resolveStringifyField (objectGetOwnOrFallback fields "stringifyAdditional" .undefined),
       objectGetOwnOrFallback fields "alertMsg" .undefined,
       objectGetOwnOrFallback fields "throwErr" (.bool false),
       true⟩ := by
  simp [resolveArgs, JVal.isUndefined, hm]

/-- Resolution when arg3 is a record that fails the params test and arg4
is absent: arg3 is the additional value and every option keeps its
default. -/
theorem resolveArgs_notParams_eq (fields : List (String × JVal))
    (hm : doesObjectOnlyHaveSpecificProps (objKeys fields) paramNames false false = false) :
    resolveArgs (.obj fields) .undefined =
      ⟨.obj fields, .undefined, .undefined, .undefined, .bool false, false⟩ := by
  simp [resolveArgs, JVal.isUndefined, hm, truthy]

/-- Resolution when arg3 is a record but arg4 is present: the params test
is short-circuited by the arg4 check, so arg3 is the additional value. -/
theorem resolveArgs_arg4Present (fields : List (String × JVal)) (arg4 : JVal)
    (h4 : arg4.isUndefined = false) :
    (resolveArgs (.obj fields) arg4).isArg3ParamsObj = false
    ∧ (resolveArgs (.obj fields) arg4).additional = .obj fields := by
  unfold resolveArgs
  rw [h4]
  simp only [Bool.false_and, if_neg (Bool.false_ne_true)]
  by_cases ht : truthy arg4
  · simp [ht]
  · simp [ht]

/-- The overwrite half of objSet: when the key is present, mapping the
update over the record makes the key read back as the assigned value. -/
theorem objGetD_map_set (f : List (String × JVal)) (k : String) (v : JVal)
    (hh : jsHasOwn f k = true) :
    objGetD (f.map fun kv => if kv.1 == k then (kv.1, v) else kv) k = v := by
  induction f with
  | nil => simp [jsHasOwn, objKeys] at hh
  | cons hd tl ih =>
    by_cases hk : (hd.1 == k) = true
    · simp [objGetD, List.find?, hk]
    · have hkne : hd.1 ≠ k := by simpa using hk
      have htl : jsHasOwn tl k = true := by
        apply List.elem_iff.mpr
        have hmem : k ∈ hd.1 :: objKeys tl := List.elem_iff.mp hh
        rcases List.mem_cons.mp hmem with h | h
        · exact absurd h.symm hkne
        · exact h
      simpa [objGetD, List.find?, hk] using ih htl

/-- The append half of objSet: when the key is absent, the appended entry
is the one found. -/
theorem objGetD_append_new (f : List (String × JVal)) (k : String) (v : JVal)
    (hh : jsHasOwn f k = false) :
    objGetD (f ++ [(k, v)]) k = v := by
  induction f with
  | nil => simp [objGetD, List.find?]
  | cons hd tl ih =>
    have hk : ¬ (hd.1 == k) = true := by
      intro hcontra
      have hm : k ∈ hd.1 :: objKeys tl := List.mem_cons.mpr (Or.inl (beq_iff_eq.mp hcontra).symm)
      rw [show jsHasOwn (hd :: tl) k = true from List.elem_iff.mpr hm] at hh
      exact Bool.noConfusion hh
    have htl : jsHasOwn tl k = false := by
      cases hc : jsHasOwn tl k with
      | false => rfl
      | true =>
          have hm : k ∈ hd.1 :: objKeys tl := List.mem_cons.mpr (Or.inr (List.elem_iff.mp hc))
          rw [show jsHasOwn (hd :: tl) k = true from List.elem_iff.mpr hm] at hh
          exact Bool.noConfusion hh
    simpa [objGetD, List.find?, hk] using ih htl

/-- Reading back the key just assigned by objSet yields the assigned
value. -/
theorem objGetD_objSet_self (f : List (String × JVal)) (k : String) (v : JVal) :
    objGetD (objSet f k v) k = v := by
  unfold objSet
  by_cases hh : jsHasOwn f k = true
  · rw [if_pos hh]
    exact objGetD_map_set f k v hh
  · rw [if_neg hh]
    exact objGetD_append_new f k v (by simpa using hh)

/-- The dispatch step never changes the final configuration record: it is
fixed at resolution time. -/
theorem dispatch_cfgFinal (level : LogLevel) (msg : JVal) (pb : String) (aa : Bool) (r : Resolved) :
    (dispatch level msg pb aa r).stringifyCfgFinal = cfgFinal r := by
  unfold dispatch
  cases hs : serOfResolved r with
  | error e => rfl
  | ok payload => rfl

/-- The console lines of the dispatch step, in closed form: the primary
line unless throwErr is strictly true, then the additional-data line when
the serialization step produced a payload. -/
theorem dispatch_consoleLines (level : LogLevel) (msg : JVal) (pb : String) (aa : Bool) (r : Resolved) :
    (dispatch level msg pb aa r).consoleLines =
      (if isStrictTrue r.throwErr then [] else [(header level pb ++ jsToString msg, none)])
      ++ (match serOfResolved r with
          | .error _ => []
          | .ok none => []
          | .ok (some p) => [(header level pb ++ "additional data:\n", some p)]) := by
  unfold dispatch
  cases hs : serOfResolved r with
  | error e => cases hl : isStrictTrue r.throwErr <;> simp [hl]
  | ok payload => cases payload <;> cases hl : isStrictTrue r.throwErr <;> simp [hl]

/-- The thrown outcome of the dispatch step, in closed form. -/
theorem dispatch_thrown (level : LogLevel) (msg : JVal) (pb : String) (aa : Bool) (r : Resolved) :
    (dispatch level msg pb aa r).thrown =
      match serOfResolved r with
      | .error e => some (.serFailure e)
      | .ok _ =>
          if truthy r.throwErr then
            match r.throwErr with
            | .str s => some (.newError (header level pb ++ s))
            | .errV m => some (.originalError (header level pb ++ m))
            | _ => some (.newError (header level pb ++ jsToString msg))
          else none := by
  unfold dispatch
  cases hs : serOfResolved r with
  | error e => rfl
  | ok payload => rfl

/-- No log call ever invokes alert: the source composes the body and drops
it. -/
theorem dispatch_alertCalls (level : LogLevel) (msg : JVal) (pb : String) (aa : Bool) (r : Resolved) :
    (dispatch level msg pb aa r).alertCalls = [] := by
  unfold dispatch
  cases hs : serOfResolved r with
  | error e => rfl
  | ok payload => rfl

/-- Every console line written by the dispatch step starts with the
bracket header. -/
theorem dispatch_lines_shape (level : LogLevel) (msg : JVal) (pb : String) (aa : Bool) (r : Resolved) :
    ∀ line ∈ (dispatch level msg pb aa r).consoleLines,
      ∃ rest, line.1 = header level pb ++ rest := by
  intro line hline
  rw [dispatch_consoleLines] at hline
  rcases List.mem_append.mp hline with hm | hm
  · by_cases hl : isStrictTrue r.throwErr
    · simp [hl] at hm
    · rw [if_neg hl, List.mem_singleton] at hm
      exact ⟨jsToString msg, by rw [hm]⟩
  · cases hs : serOfResolved r with
    | error e => rw [hs] at hm; simp at hm
    | ok payload =>
        rw [hs] at hm
        cases payload with
        | none => simp at hm
        | some p =>
            rw [List.mem_singleton] at hm
            exact ⟨"additional data:\n", by rw [hm]⟩

/-- The prefix body of a freshly constructed Logger is the join of its
initial parts. -/
theorem make_prefixBody (ps : List String) :
    (Logger.make ps).prefixBody = String.intercalate " > " ps := rfl

/-- Resolution of a non-record, non-undefined arg3: it is unconditionally
the additional value, whatever arg4 is. -/
theorem resolveArgs_nonObj_additional (arg3 arg4 : JVal)
    (hio : isObject arg3 = false) (hne : arg3 ≠ .undefined) :
    (resolveArgs arg3 arg4).additional = arg3 := by
  cases arg3 with
  | undefined => exact absurd rfl hne
  | obj f => exact absurd hio (by simp [isObject])
  | null => unfold resolveArgs; by_cases ht : truthy arg4 = true <;> simp [ht]
  | bool b => unfold resolveArgs; by_cases ht : truthy arg4 = true <;> simp [ht]
  | num n => unfold resolveArgs; by_cases ht : truthy arg4 = true <;> simp [ht]
  | str s => unfold resolveArgs; by_cases ht : truthy arg4 = true <;> simp [ht]
  | arr es => unfold resolveArgs; by_cases ht : truthy arg4 = true <;> simp [ht]
  | func => unfold resolveArgs; by_cases ht : truthy arg4 = true <;> simp [ht]
  | errV m => unfold resolveArgs; by_cases ht : truthy arg4 = true <;> simp [ht]
  | bigint n => unfold resolveArgs; by_cases ht : truthy arg4 = true <;> simp [ht]

/-
  The claim theorems.
-/

/-- C1, counterexample: at the concrete call
log(level, msg, record with only the key additional, record with only the
key alertMsg), arg3 is a non-empty plain record whose keys are all
recognized, yet it is NOT resolved as the options bag (the additional
value is the whole record, not its additional field) and arg4 is NOT
ignored (its alertMsg is extracted). The params test of line 179 requires
arg4 to be strictly undefined. -/
theorem claim_C1_counterexample :
    (resolveArgs (.obj [("additional", .num 123)]) (.obj [("alertMsg", .bool true)])).isArg3ParamsObj = false
    ∧ (resolveArgs (.obj [("additional", .num 123)]) (.obj [("alertMsg", .bool true)])).additional
        = .obj [("additional", .num 123)]
    ∧ (resolveArgs (.obj [("additional", .num 123)]) (.obj [("alertMsg", .bool true)])).additional
        ≠ .num 123
    ∧ (resolveArgs (.obj [("additional", .num 123)]) (.obj [("alertMsg", .bool true)])).alertMsg
        = .bool true
    ∧ (resolveArgs (.obj [("additional", .num 123)]) (.obj [("alertMsg", .bool true)])).alertMsg
        ≠ .undefined := by
  refine ⟨rfl, rfl, ?_, rfl, ?_⟩
  · intro h
    have h2 : JVal.obj [("additional", JVal.num 123)] = JVal.num 123 := h
    exact JVal.noConfusion h2
  · intro h
    have h2 : JVal.bool true = JVal.undefined := h
    exact JVal.noConfusion h2

/-- C1, amended: a non-empty plain record arg3 whose keys are all among
the five recognized option keys is resolved as the options bag only when
arg4 is absent (strictly undefined); when arg4 is supplied, arg3 is
treated as the additional value in full. -/
theorem claim_C1_amended (fields : List (String × JVal)) (arg4 : JVal)
    (hne : fields ≠ []) (hnd : (objKeys fields).Nodup)
    (hsub : ∀ k ∈ objKeys fields, k ∈ paramNames) :
    (arg4 = .undefined →
      (resolveArgs (.obj fields) arg4).isArg3ParamsObj = true
      ∧ (resolveArgs (.obj fields) arg4).additional = objectGetOwnOrFallback fields "additional" .undefined)
    ∧ (arg4 ≠ .undefined →
      (resolveArgs (.obj fields) arg4).isArg3ParamsObj = false
      ∧ (resolveArgs (.obj fields) arg4).additional = .obj fields) := by
  constructor
  · intro h4
    subst h4
    have hkeysne : objKeys fields ≠ [] := by
      cases fields with
      | nil => exact absurd rfl hne
      | cons a l => simp [objKeys]
    have hm := (dosp_paramNames_iff (objKeys fields)).mpr
      ⟨hkeysne, nodup_subset_paramNames_length _ hnd hsub, hsub⟩
    rw [resolveArgs_params_eq fields hm]
    exact ⟨rfl, rfl⟩
  · intro h4
    have h4' : arg4.isUndefined = false := by
      cases arg4 with
      | undefined => exact absurd rfl h4
      | null => rfl
      | bool b => rfl
      | num n => rfl
      | str s => rfl
      | arr es => rfl
      | obj f => rfl
      | func => rfl
      | errV m => rfl
      | bigint n => rfl
    exact resolveArgs_arg4Present fields arg4 h4'

/-- C1, witness: with arg4 absent the recognized record is the options bag
and its additional field is extracted; with arg4 supplied the same record
is the additional value. -/
theorem claim_C1_witness :
    (resolveArgs (.obj [("additional", .num 123)]) .undefined).additional = .num 123
    ∧ (resolveArgs (.obj [("additional", .num 123)]) (.num 7)).additional
        = .obj [("additional", .num 123)] := by
  have h1 := claim_C1_amended [("additional", .num 123)] JVal.undefined (by simp) (by decide)
    (by intro k hk; simp [objKeys] at hk; subst hk; simp [paramNames])
  have h2 := claim_C1_amended [("additional", .num 123)] (JVal.num 7) (by simp) (by decide)
    (by intro k hk; simp [objKeys] at hk; subst hk; simp [paramNames])
  refine ⟨((h1.1 rfl).2).trans rfl, ?_⟩
  exact (h2.2 (fun hc => JVal.noConfusion hc)).2

/-- C2, code bug: at the failing call
log(info, hello, record with alertMsg true and throwErr boom) in a host
that provides alert, the source composes the alert body but never invokes
alert, so no modal is shown; moreover the composed note reads
messaage, not message. -/
theorem claim_C2_codebug :
    ((Logger.make []).log .info (.str "hello")
        (.obj [("alertMsg", .bool true), ("throwErr", .str "boom")]) .undefined true).alertCalls = []
    ∧ composeAlertBody "[info] hello" false true
        = "[info] hello\n\n(see an error messaage in the console)"
    ∧ "[info] hello\n\n(see an error messaage in the console)"
        ≠ "[info] hello\n\n(see an error message in the console)" := by
  refine ⟨rfl, rfl, by decide⟩

/-- C3: with arg4 absent, a non-empty plain record arg3 with only
recognized keys is the options bag (in particular a bag with additional
123 logs the additional value 123, not the record); the empty record and
any record with a foreign key are the additional value in full. -/
theorem claim_C3 :
    (∀ fields : List (String × JVal), fields ≠ [] → (objKeys fields).Nodup →
        (∀ k ∈ objKeys fields, k ∈ paramNames) →
        (resolveArgs (.obj fields) .undefined).isArg3ParamsObj = true
        ∧ (resolveArgs (.obj fields) .undefined).additional
            = objectGetOwnOrFallback fields "additional" .undefined)
    ∧ ((Logger.make []).log .info (.str "m") (.obj [("additional", .num 123)]) .undefined false).consoleLines
        = [("[info] m", none), ("[info] additional data:\n", some (.num 123))]
    ∧ (resolveArgs (.obj []) .undefined).isArg3ParamsObj = false
    ∧ (resolveArgs (.obj []) .undefined).additional = .obj []
    ∧ (∀ fields : List (String × JVal), ∀ k ∈ objKeys fields, k ∉ paramNames →
        (resolveArgs (.obj fields) .undefined).isArg3ParamsObj = false
        ∧ (resolveArgs (.obj fields) .undefined).additional = .obj fields) := by
  refine ⟨?_, rfl, rfl, rfl, ?_⟩
  · intro fields hne hnd hsub
    have hkeysne : objKeys fields ≠ [] := by
      cases fields with
      | nil => exact absurd rfl hne
      | cons a l => simp [objKeys]
    have hm := (dosp_paramNames_iff (objKeys fields)).mpr
      ⟨hkeysne, nodup_subset_paramNames_length _ hnd hsub, hsub⟩
    rw [resolveArgs_params_eq fields hm]
    exact ⟨rfl, rfl⟩
  · intro fields k hk hnk
    have hm : doesObjectOnlyHaveSpecificProps (objKeys fields) paramNames false false = false := by
      cases hd : doesObjectOnlyHaveSpecificProps (objKeys fields) paramNames false false with
      | false => rfl
      | true => exact absurd (((dosp_paramNames_iff _).mp hd).2.2 k hk) hnk
    rw [resolveArgs_notParams_eq fields hm]
    exact ⟨rfl, rfl⟩

/-- C3, witness: a record with only the recognized key additional resolves
to additional 123, and a record that also carries the foreign key hello is
the additional value in full. -/
theorem claim_C3_witness :
    (resolveArgs (.obj [("additional", .str "abc")]) .undefined).isArg3ParamsObj = true
    ∧ (resolveArgs (.obj [("additional", .str "abc")]) .undefined).additional = .str "abc"
    ∧ (resolveArgs (.obj [("additional", .num 123), ("hello", .str "world")]) .undefined).additional
        = .obj [("additional", .num 123), ("hello", .str "world")] := by
  have h := claim_C3
  have h1 := h.1 [("additional", .str "abc")] (by simp) (by decide)
    (by intro k hk; simp [objKeys] at hk; subst hk; simp [paramNames])
  refine ⟨h1.1, h1.2.trans rfl, ?_⟩
  exact (h.2.2.2.2 [("additional", .num 123), ("hello", .str "world")] "hello"
    (by simp [objKeys]) (by decide)).2

/-- C4, counterexample: a resolved throwErr that is the empty string is a
string, yet nothing is thrown (the throw block tests plain truthiness and
the empty string is falsy); the primary line is written as usual. -/
theorem claim_C4_counterexample :
    ((Logger.make []).log .info (.str "m") (.obj [("throwErr", .str "")]) .undefined false).thrown = none
    ∧ ((Logger.make []).log .info (.str "m") (.obj [("throwErr", .str "")]) .undefined false).consoleLines
        = [("[info] m", none)] := ⟨rfl, rfl⟩

/-- C4, amended: when the additional-data step does not fail, the resolved
throwErr drives the outcome as follows. False (the default of an absent
option) never throws. Strictly true suppresses the primary line and throws
a new error carrying the prefixed primary message. A non-empty string logs
the primary line and throws a new error carrying the prefixed string,
while the empty string, being falsy, throws nothing. An error value logs
the primary line and re-raises that same error with the prefix prepended
to its message. -/
theorem claim_C4_amended (level : LogLevel) (msg : JVal) (pb : String) (aa : Bool) (r : Resolved)
    (x : Option JVal) (hser : serOfResolved r = .ok x) :
    (r.throwErr = .bool false → (dispatch level msg pb aa r).thrown = none)
    ∧ (r.throwErr = .bool true →
        (header level pb ++ jsToString msg, (none : Option JVal)) ∉ (dispatch level msg pb aa r).consoleLines
        ∧ (dispatch level msg pb aa r).thrown
            = some (.newError (header level pb ++ jsToString msg)))
    ∧ (∀ s : String, r.throwErr = .str s → s ≠ "" →
        (header level pb ++ jsToString msg, (none : Option JVal)) ∈ (dispatch level msg pb aa r).consoleLines
        ∧ (dispatch level msg pb aa r).thrown = some (.newError (header level pb ++ s)))
    ∧ (r.throwErr = .str "" → (dispatch level msg pb aa r).thrown = none)
    ∧ (∀ m : String, r.throwErr = .errV m →
        (header level pb ++ jsToString msg, (none : Option JVal)) ∈ (dispatch level msg pb aa r).consoleLines
        ∧ (dispatch level msg pb aa r).thrown = some (.originalError (header level pb ++ m))) := by
  refine ⟨?_, ?_, ?_, ?_, ?_⟩
  · intro h
    rw [dispatch_thrown, hser, h]
    rfl
  · intro h
    constructor
    · intro hmem
      rw [dispatch_consoleLines, hser, h] at hmem
      cases x with
      | none => simp [isStrictTrue] at hmem
      | some p => simp [isStrictTrue] at hmem
    · rw [dispatch_thrown, hser, h]
      rfl
  · intro s h hs
    constructor
    · rw [dispatch_consoleLines, hser, h]
      have : isStrictTrue (JVal.str s) = false := rfl
      rw [this]
      simp
    · rw [dispatch_thrown, hser, h]
      have ht : truthy (JVal.str s) = true := by simpa [truthy] using hs
      rw [ht]
      rfl
  · intro h
    rw [dispatch_thrown, hser, h]
    rfl
  · intro m h
    constructor
    · rw [dispatch_consoleLines, hser, h]
      have : isStrictTrue (JVal.errV m) = false := rfl
      rw [this]
      simp
    · rw [dispatch_thrown, hser, h]
      rfl

/-- C4, witness: the four throw shapes at concrete resolved option sets
with an empty header and no additional value. -/
theorem claim_C4_witness :
    (dispatch .info (.str "m") "" false ⟨.undefined, .undefined, .undefined, .undefined, .bool false, true⟩).thrown = none
    ∧ (dispatch .info (.str "m") "" false ⟨.undefined, .undefined, .undefined, .undefined, .bool true, true⟩).thrown
        = some (.newError "[info] m")
    ∧ (dispatch .info (.str "m") "" false ⟨.undefined, .undefined, .undefined, .undefined, .str "boom", true⟩).thrown
        = some (.newError "[info] boom")
    ∧ (dispatch .info (.str "m") "" false ⟨.undefined, .undefined, .undefined, .undefined, .errV "bad", true⟩).thrown
        = some (.originalError "[info] bad")
    ∧ (dispatch .info (.str "m") "" false ⟨.undefined, .undefined, .undefined, .undefined, .str "", true⟩).thrown = none := by
  have h1 := claim_C4_amended .info (.str "m") "" false
    ⟨.undefined, .undefined, .undefined, .undefined, .bool false, true⟩ none rfl
  have h2 := claim_C4_amended .info (.str "m") "" false
    ⟨.undefined, .undefined, .undefined, .undefined, .bool true, true⟩ none rfl
  have h3 := claim_C4_amended .info (.str "m") "" false
    ⟨.undefined, .undefined, .undefined, .undefined, .str "boom", true⟩ none rfl
  have h4 := claim_C4_amended .info (.str "m") "" false
    ⟨.undefined, .undefined, .undefined, .undefined, .errV "bad", true⟩ none rfl
  have h5 := claim_C4_amended .info (.str "m") "" false
    ⟨.undefined, .undefined, .undefined, .undefined, .str "", true⟩ none rfl
  exact ⟨h1.1 rfl, (h2.2.1 rfl).2, (h3.2.2.1 "boom" rfl (by decide)).2,
    (h4.2.2.2.2 "bad" rfl).2, h5.2.2.2.1 rfl⟩

/-- C5: a stringifyAdditional configuration record whose space field is
absent or null has space defaulted to 2 at resolution time, through both
the arg3 bag and the arg4 bag; with stringifyAdditional strictly true the
additional value is serialized exactly as JSON.stringify with null
replacer and space 2, which on the record foo: and bar yields the standard
two-space-indented text. -/
theorem claim_C5 :
    (∀ cfgFields : List (String × JVal),
        objGetD cfgFields "space" = .undefined ∨ objGetD cfgFields "space" = .null →
        (resolveArgs (.obj [("stringifyAdditional", .obj cfgFields)]) .undefined).stringifyAdditional
            = .obj (objSet cfgFields "space" (.num 2))
        ∧ (resolveArgs (.str "x") (.obj [("stringifyAdditional", .obj cfgFields)])).stringifyAdditional
            = .obj (objSet cfgFields "space" (.num 2)))
    ∧ (∀ r : Resolved, r.stringifyAdditional = .bool true → logAdditionalOf r = true →
        serOfResolved r = (jsonStringify r.additional .null (.num 2)).map some)
    ∧ jsonStringify (.obj [("foo", .str "and bar")]) .null (.num 2)
        = .ok (.str "\x7b\n  \"foo\": \"and bar\"\n\x7d")
    ∧ ((Logger.make []).log .info (.str "m")
          (.obj [("additional", .obj [("foo", .str "and bar")]), ("stringifyAdditional", .bool true)])
          .undefined false).consoleLines
        = [("[info] m", none),
           ("[info] additional data:\n", some (.str "\x7b\n  \"foo\": \"and bar\"\n\x7d"))] := by
  refine ⟨?_, ?_, rfl, rfl⟩
  · intro cfgFields h
    have hres : resolveStringifyField (.obj cfgFields) = .obj (objSet cfgFields "space" (.num 2)) := by
      show JVal.obj (objSet cfgFields "space" (fallbackIfNullish (objGetD cfgFields "space") (JVal.num 2)))
          = JVal.obj (objSet cfgFields "space" (JVal.num 2))
      rcases h with h | h <;> rw [h] <;> rfl
    constructor
    · exact hres
    · exact hres
  · intro r h1 h2
    unfold serOfResolved
    rw [h2, h1]
    have ht : truthy (JVal.bool true) = true := rfl
    have hst : isStrictTrue (JVal.bool true) = true := rfl
    rw [ht, hst]
    cases hj : jsonStringify r.additional .null (.num 2) with
    | error e => simp [hj, Except.map]
    | ok s => simp [hj, Except.map]

/-- C5, witness: the empty configuration record gains space 2, and a
resolved option set with stringifyAdditional strictly true serializes a
number with the two-space serializer. -/
theorem claim_C5_witness :
    (resolveArgs (.obj [("stringifyAdditional", .obj [])]) .undefined).stringifyAdditional
        = .obj [("space", .num 2)]
    ∧ serOfResolved ⟨.num 3, .undefined, .bool true, .undefined, .bool false, true⟩
        = (jsonStringify (.num 3) .null (.num 2)).map some := by
  have h := claim_C5
  exact ⟨((h.1 [] (Or.inl rfl)).1).trans rfl,
    h.2.1 ⟨.num 3, .undefined, .bool true, .undefined, .bool false, true⟩ rfl rfl⟩

/-- C6, counterexample: a logger whose prefix chain is the non-empty
sequence holding one empty string renders its header as if there were no
prefixes at all (the joined body is empty and therefore falsy), not as the
claimed level-pipe-empty-body header. -/
theorem claim_C6_counterexample :
    ((Logger.make [""]).log .info (.str "m") .undefined .undefined false).consoleLines = [("[info] m", none)]
    ∧ ((Logger.make [""]).log .info (.str "m") .undefined .undefined false).consoleLines
        ≠ [("[info | ] m", none)] := by
  refine ⟨rfl, ?_⟩
  intro hc
  have h2 : [(("[info] m" : String), (none : Option JVal))] = [("[info | ] m", (none : Option JVal))] := hc
  have h3 : ("[info] m" : String) = "[info | ] m" :=
    congrArg (fun ll => (ll.headD ("", none)).1) h2
  exact absurd h3 (by decide)

/-- C6, amended: a prefix-less logger writes exactly one line, the
bracketed level followed by the message; and whenever the joined prefix
body is non-empty every emitted line starts with the header made of the
level, a pipe and the joined parts. A chain whose join is empty (the
single chain holding one empty string) renders as if there were no
prefixes. -/
theorem claim_C6_amended (level : LogLevel) (m : String) (aa : Bool) :
    ((Logger.make []).log level (.str m) .undefined .undefined aa).consoleLines
        = [("[" ++ level.str ++ "] " ++ m, none)]
    ∧ (∀ parts : List String, String.intercalate " > " parts ≠ "" →
        ∀ (msg arg3 arg4 : JVal) (aa2 : Bool),
        ∀ line ∈ ((Logger.make parts).log level msg arg3 arg4 aa2).consoleLines,
          ∃ rest, line.1 = "[" ++ level.str ++ " | " ++ String.intercalate " > " parts ++ "] " ++ rest) := by
  constructor
  · cases level <;> rfl
  · intro parts hb msg arg3 arg4 aa2 line hline
    have hline2 : line ∈ (dispatch level msg (String.intercalate " > " parts) aa2
        (resolveArgs arg3 arg4)).consoleLines := hline
    obtain ⟨rest, hr⟩ := dispatch_lines_shape level msg (String.intercalate " > " parts) aa2
      (resolveArgs arg3 arg4) line hline2
    refine ⟨rest, ?_⟩
    rw [hr]
    unfold header
    rw [if_pos (by simpa using hb)]
    simp [String.append_assoc]

/-- C6, witness: the two header forms at the chain a and the empty
chain. -/
theorem claim_C6_witness :
    ((Logger.make []).log .info (.str "hello") .undefined .undefined false).consoleLines
        = [("[info] hello", none)]
    ∧ (∃ rest, ("[info | a > b] m" : String) = "[info | a > b] " ++ rest) := by
  have h := claim_C6_amended .info "hello" false
  refine ⟨h.1, ?_⟩
  have h2 := h.2
  have hmem : (("[info | a > b] m" : String), (none : Option JVal))
      ∈ ((Logger.make ["a", "b"]).log .info (.str "m") .undefined .undefined false).consoleLines := by
    exact List.mem_singleton.mpr rfl
  have h3 := claim_C6_amended .info "x" false
  obtain ⟨rest, hr⟩ := h3.2 ["a", "b"] (by decide) (.str "m") .undefined .undefined false _ hmem
  exact ⟨rest, hr⟩

/-- C7: cloning copies the exact current prefix sequence into a freshly
allocated array, so appending to the clone leaves the original unchanged
and appending to the original leaves the clone unchanged. -/
theorem claim_C7 (s : PrefixStore) (r : Nat) (h : r < s.arrays.length) (ps qs : List String) :
    ((cloneHeap s r).1).getArr (cloneHeap s r).2 = s.getArr r
    ∧ (appendPrefixHeap (cloneHeap s r).1 (cloneHeap s r).2 ps).getArr r = s.getArr r
    ∧ (appendPrefixHeap (cloneHeap s r).1 r qs).getArr (cloneHeap s r).2 = s.getArr r := by
  have hne : s.arrays.length ≠ r := (Nat.ne_of_lt h).symm
  have hget0 : (s.arrays ++ [[]]).getD s.arrays.length [] = ([] : List String) := by
    rw [List.getD_eq_getElem?_getD, List.getElem?_concat_length]
    rfl
  have hs1 : ((cloneHeap s r).1).arrays
      = (s.arrays ++ [[]]).set s.arrays.length (s.getArr r) := by
    show (s.arrays ++ [[]]).set s.arrays.length
        ((s.arrays ++ [[]]).getD s.arrays.length [] ++ s.getArr r) = _
    rw [hget0, List.nil_append]
  have hlenset : s.arrays.length < (s.arrays ++ [[]]).length := by
    simp
  have hA : ((cloneHeap s r).1).getArr (cloneHeap s r).2 = s.getArr r := by
    show ((cloneHeap s r).1).arrays.getD s.arrays.length [] = s.getArr r
    rw [hs1, List.getD_eq_getElem?_getD, List.getElem?_set_self hlenset]
    rfl
  refine ⟨hA, ?_, ?_⟩
  · show (((cloneHeap s r).1).arrays.set s.arrays.length _).getD r [] = s.getArr r
    rw [List.getD_eq_getElem?_getD, List.getElem?_set_ne hne, hs1,
      List.getElem?_set_ne hne, List.getElem?_append_left h,
      ← List.getD_eq_getElem?_getD]
    rfl
  · show (((cloneHeap s r).1).arrays.set r _).getD s.arrays.length [] = s.getArr r
    rw [List.getD_eq_getElem?_getD, List.getElem?_set_ne (Ne.symm hne), hs1,
      List.getElem?_set_self hlenset]
    rfl

/-- C7, witness: a concrete store with one logger owning the chain a,
cloned and extended on both sides. -/
theorem claim_C7_witness :
    ((cloneHeap ⟨[["a"]]⟩ 0).1).getArr (cloneHeap ⟨[["a"]]⟩ 0).2 = ["a"]
    ∧ (appendPrefixHeap (cloneHeap ⟨[["a"]]⟩ 0).1 (cloneHeap ⟨[["a"]]⟩ 0).2 ["b"]).getArr 0 = ["a"]
    ∧ (appendPrefixHeap (cloneHeap ⟨[["a"]]⟩ 0).1 0 ["c"]).getArr (cloneHeap ⟨[["a"]]⟩ 0).2 = ["a"] := by
  have h := claim_C7 ⟨[["a"]]⟩ 0 (by decide) ["b"] ["c"]
  exact ⟨h.1.trans rfl, h.2.1.trans rfl, h.2.2.trans rfl⟩

/-- C8: the log method is the dispatch of the resolver output, and the
resolver is total across every shape of arg3 and arg4: undefined arg3
leaves the additional value absent, any non-record arg3 is the additional
value, and a record arg3 is the options bag exactly when arg4 is undefined
and the record passes the recognized-keys test, otherwise it is the
additional value in full. -/
theorem claim_C8 (l : Logger) (level : LogLevel) (msg arg3 arg4 : JVal) (aa : Bool) :
    l.log level msg arg3 arg4 aa = dispatch level msg l.prefixBody aa (resolveArgs arg3 arg4)
    ∧ (arg3 = .undefined → (resolveArgs arg3 arg4).additional = .undefined)
    ∧ (isObject arg3 = false → arg3 ≠ .undefined → (resolveArgs arg3 arg4).additional = arg3)
    ∧ (∀ fields, arg3 = .obj fields →
        (resolveArgs arg3 arg4).isArg3ParamsObj
          = (arg4.isUndefined && doesObjectOnlyHaveSpecificProps (objKeys fields) paramNames false false)
        ∧ ((arg4.isUndefined && doesObjectOnlyHaveSpecificProps (objKeys fields) paramNames false false) = false →
            (resolveArgs arg3 arg4).additional = .obj fields)) := by
  refine ⟨rfl, ?_, ?_, ?_⟩
  · intro h
    subst h
    unfold resolveArgs
    by_cases ht : truthy arg4 = true <;> simp [ht]
  · intro hio hne
    exact resolveArgs_nonObj_additional arg3 arg4 hio hne
  · intro fields h
    subst h
    constructor
    · unfold resolveArgs
      by_cases hc : (arg4.isUndefined && doesObjectOnlyHaveSpecificProps (objKeys fields) paramNames false false) = true
      · simp [hc]
      · have hc' : (arg4.isUndefined && doesObjectOnlyHaveSpecificProps (objKeys fields) paramNames false false) = false := by
          simpa using hc
        by_cases ht : truthy arg4 = true <;> simp [hc', ht]
    · intro hcf
      unfold resolveArgs
      by_cases ht : truthy arg4 = true <;> simp [hcf, ht]

/-- C8, witness: the resolver at an absent arg3, at a primitive arg3 and
at a record arg3 that fails the recognized-keys test. -/
theorem claim_C8_witness :
    (resolveArgs .undefined .undefined).additional = .undefined
    ∧ (resolveArgs (.num 7) .undefined).additional = .num 7
    ∧ (resolveArgs (.obj [("x", .num 1)]) .undefined).additional = .obj [("x", .num 1)] := by
  have h1 := claim_C8 (Logger.make []) .info (.str "m") .undefined .undefined true
  have h2 := claim_C8 (Logger.make []) .info (.str "m") (.num 7) .undefined true
  have h3 := claim_C8 (Logger.make []) .info (.str "m") (.obj [("x", .num 1)]) .undefined true
  refine ⟨h1.2.1 rfl, h2.2.2.1 rfl (fun hc => JVal.noConfusion hc), ?_⟩
  exact (h3.2.2.2 [("x", .num 1)] rfl).2 (by decide)

/-- C9: a failure of the serialization step propagates to the caller
exactly as the serializer raised it, neither caught nor wrapped nor
replaced, and no modal is shown; serializing a BigInt is such a
failure. -/
theorem claim_C9 (level : LogLevel) (msg : JVal) (pb : String) (aa : Bool) (r : Resolved) (e : String)
    (h : serOfResolved r = .error e) :
    (dispatch level msg pb aa r).thrown = some (.serFailure e)
    ∧ (dispatch level msg pb aa r).alertCalls = []
    ∧ jsonStringify (.bigint 1) .null (.num 2) = .error "Do not know how to serialize a BigInt" := by
  refine ⟨?_, dispatch_alertCalls level msg pb aa r, rfl⟩
  rw [dispatch_thrown, h]

/-- C9, witness: a BigInt additional value under stringifyAdditional true
propagates the serializer TypeError. -/
theorem claim_C9_witness :
    (dispatch .info (.str "m") "" false ⟨.bigint 1, .undefined, .bool true, .undefined, .bool false, true⟩).thrown
      = some (.serFailure "Do not know how to serialize a BigInt") := by
  exact (claim_C9 .info (.str "m") "" false
    ⟨.bigint 1, .undefined, .bool true, .undefined, .bool false, true⟩
    "Do not know how to serialize a BigInt" rfl).1

/-- C10: a caller-supplied stringifyAdditional configuration record whose
space field is absent or null is observably mutated by the call: its space
field holds 2 afterwards, through both the arg3 bag and the arg4 bag
paths, and it did not hold 2 before. -/
theorem claim_C10 (cfgFields : List (String × JVal))
    (h : objGetD cfgFields "space" = .undefined ∨ objGetD cfgFields "space" = .null) :
    (∀ (l : Logger) (level : LogLevel) (msg : JVal) (aa : Bool),
        (l.log level msg (.obj [("stringifyAdditional", .obj cfgFields)]) .undefined aa).stringifyCfgFinal
          = some (objSet cfgFields "space" (.num 2)))
    ∧ (∀ (l : Logger) (level : LogLevel) (msg : JVal) (aa : Bool),
        (l.log level msg (.str "payload") (.obj [("stringifyAdditional", .obj cfgFields)]) aa).stringifyCfgFinal
          = some (objSet cfgFields "space" (.num 2)))
    ∧ objGetD (objSet cfgFields "space" (.num 2)) "space" = .num 2
    ∧ objGetD cfgFields "space" ≠ .num 2 := by
  have hres : resolveStringifyField (.obj cfgFields) = .obj (objSet cfgFields "space" (.num 2)) := by
    show JVal.obj (objSet cfgFields "space" (fallbackIfNullish (objGetD cfgFields "space") (JVal.num 2)))
        = JVal.obj (objSet cfgFields "space" (JVal.num 2))
    rcases h with h | h <;> rw [h] <;> rfl
  refine ⟨?_, ?_, objGetD_objSet_self cfgFields "space" (.num 2), ?_⟩
  · intro l level msg aa
    rw [show l.log level msg (.obj [("stringifyAdditional", .obj cfgFields)]) .undefined aa
        = dispatch level msg l.prefixBody aa
            (resolveArgs (.obj [("stringifyAdditional", .obj cfgFields)]) .undefined) from rfl,
      dispatch_cfgFinal]
    show cfgFinal (resolveArgs (.obj [("stringifyAdditional", .obj cfgFields)]) .undefined)
        = some (objSet cfgFields "space" (.num 2))
    unfold cfgFinal
    rw [show (resolveArgs (.obj [("stringifyAdditional", .obj cfgFields)]) .undefined).stringifyAdditional
        = resolveStringifyField (.obj cfgFields) from rfl, hres]
  · intro l level msg aa
    rw [show l.log level msg (.str "payload") (.obj [("stringifyAdditional", .obj cfgFields)]) aa
        = dispatch level msg l.prefixBody aa
            (resolveArgs (.str "payload") (.obj [("stringifyAdditional", .obj cfgFields)])) from rfl,
      dispatch_cfgFinal]
    show cfgFinal (resolveArgs (.str "payload") (.obj [("stringifyAdditional", .obj cfgFields)]))
        = some (objSet cfgFields "space" (.num 2))
    unfold cfgFinal
    rw [show (resolveArgs (.str "payload") (.obj [("stringifyAdditional", .obj cfgFields)])).stringifyAdditional
        = resolveStringifyField (.obj cfgFields) from rfl, hres]
  · intro hc
    rcases h with h | h <;> rw [h] at hc <;> exact JVal.noConfusion hc

/-- C10, witness: the empty configuration record, passed through the arg3
bag, comes back holding space 2. -/
theorem claim_C10_witness :
    ((Logger.make []).log .info (.str "m") (.obj [("stringifyAdditional", .obj [])]) .undefined false).stringifyCfgFinal
      = some [("space", .num 2)] := by
  exact ((claim_C10 [] (Or.inl rfl)).1 (Logger.make []) .info (.str "m") false).trans rfl

end Murolem
